import Mathlib

/-!
Verification of the pomodoro CLI (github.com/pranavek/pomodoro).

The Go sources are shallowly embedded: every analytics function becomes a
Lean function over `List SessionRecord`; floating-point arithmetic is
modelled by `ℚ`; `time.Time` values are modelled by the projections the
code actually uses (calendar-day index, hour of day, weekday); the
interactive timer loop is modelled as a fold over the script of events
that occurred during the run.
-/

namespace Pomodoro

/-- A persisted session row, from `SessionRecord` in `pomo/storage.go`.
The `Date` timestamp is modelled by the three projections the analytics
code uses: a calendar-day index (`day`), the hour of day `t.Hour()`
(`hour`, `0 ≤ hour < 24`), and the weekday `t.Weekday()` (`weekday`,
`0 = Sunday` as in Go). Durations are the `time.Duration` integer fields. -/
structure SessionRecord where
  day : ℤ
  hour : ℕ
  weekday : ℕ
  title : String
  goal : String
  completedPomos : ℕ
  skippedSessions : ℕ
  workTime : ℤ
  breakTime : ℤ
  duration : ℤ
deriving DecidableEq

/-- Aggregate statistics, from `ReportStats` in the report source file. -/
structure ReportStats where
  TotalSessions : ℕ
  TotalPomos : ℕ
  TotalSkipped : ℕ
  TotalWorkTime : ℤ
  TotalBreakTime : ℤ
  TotalDuration : ℤ
  AveragePomos : ℚ
  Records : List SessionRecord
deriving DecidableEq

/-- The all-zero report returned for an empty record set. -/
def emptyReport : ReportStats :=
  { TotalSessions := 0, TotalPomos := 0, TotalSkipped := 0, TotalWorkTime := 0,
    TotalBreakTime := 0, TotalDuration := 0, AveragePomos := 0, Records := [] }

/-- Total completed pomodoros of a record set (the `TotalPomos` accumulation loop). -/
def sumPomos (rs : List SessionRecord) : ℕ := (rs.map (fun r => r.completedPomos)).sum

/-- `GenerateReport` from the report source file: sums counts and durations
across a record set; the average is total pomodoros over session count,
guarded by `TotalSessions > 0` exactly as in the source. -/
def GenerateReport (records : List SessionRecord) : ReportStats :=
  if records = [] then emptyReport
  else
    let totalSessions := records.length
    let totalPomos := sumPomos records
    let totalSkipped := (records.map (fun r => r.skippedSessions)).sum
    let totalWorkTime := (records.map (fun r => r.workTime)).sum
    let totalBreakTime := (records.map (fun r => r.breakTime)).sum
    let totalDuration := (records.map (fun r => r.duration)).sum
    { TotalSessions := totalSessions
      TotalPomos := totalPomos
      TotalSkipped := totalSkipped
      TotalWorkTime := totalWorkTime
      TotalBreakTime := totalBreakTime
      TotalDuration := totalDuration
      AveragePomos := if 0 < totalSessions then (totalPomos : ℚ) / (totalSessions : ℚ) else 0
      Records := records }

theorem GenerateReport_TotalSessions (rs : List SessionRecord) :
    (GenerateReport rs).TotalSessions = rs.length := by
  unfold GenerateReport
  split <;> simp_all [emptyReport]

theorem GenerateReport_TotalPomos (rs : List SessionRecord) :
    (GenerateReport rs).TotalPomos = sumPomos rs := by
  unfold GenerateReport
  split <;> simp_all [emptyReport, sumPomos]

theorem GenerateReport_TotalSkipped (rs : List SessionRecord) :
    (GenerateReport rs).TotalSkipped = (rs.map (fun r => r.skippedSessions)).sum := by
  unfold GenerateReport
  split <;> simp_all [emptyReport]

theorem GenerateReport_TotalWorkTime (rs : List SessionRecord) :
    (GenerateReport rs).TotalWorkTime = (rs.map (fun r => r.workTime)).sum := by
  unfold GenerateReport
  split <;> simp_all [emptyReport]

theorem GenerateReport_TotalBreakTime (rs : List SessionRecord) :
    (GenerateReport rs).TotalBreakTime = (rs.map (fun r => r.breakTime)).sum := by
  unfold GenerateReport
  split <;> simp_all [emptyReport]

theorem GenerateReport_TotalDuration (rs : List SessionRecord) :
    (GenerateReport rs).TotalDuration = (rs.map (fun r => r.duration)).sum := by
  unfold GenerateReport
  split <;> simp_all [emptyReport]

theorem GenerateReport_AveragePomos (rs : List SessionRecord) :
    (GenerateReport rs).AveragePomos =
      if rs = [] then 0
      else ((sumPomos rs : ℕ) : ℚ) / (rs.length : ℚ) := by
  unfold GenerateReport
  split
  · simp_all [emptyReport]
  · rename_i h
    simp only [if_neg h]
    rw [if_pos (List.length_pos.mpr h)]

/-- C5: the aggregate report of a concatenation is the field-wise sum of the
two reports in every count and duration field, while `AveragePomos` is
recomputed as total pomodoros over total sessions (0 if no sessions). -/
theorem report_concat_additive (A B : List SessionRecord) :
    (GenerateReport (A ++ B)).TotalSessions
        = (GenerateReport A).TotalSessions + (GenerateReport B).TotalSessions ∧
    (GenerateReport (A ++ B)).TotalPomos
        = (GenerateReport A).TotalPomos + (GenerateReport B).TotalPomos ∧
    (GenerateReport (A ++ B)).TotalSkipped
        = (GenerateReport A).TotalSkipped + (GenerateReport B).TotalSkipped ∧
    (GenerateReport (A ++ B)).TotalWorkTime
        = (GenerateReport A).TotalWorkTime + (GenerateReport B).TotalWorkTime ∧
    (GenerateReport (A ++ B)).TotalBreakTime
        = (GenerateReport A).TotalBreakTime + (GenerateReport B).TotalBreakTime ∧
    (GenerateReport (A ++ B)).TotalDuration
        = (GenerateReport A).TotalDuration + (GenerateReport B).TotalDuration ∧
    (GenerateReport (A ++ B)).AveragePomos
        = (if (GenerateReport (A ++ B)).TotalSessions = 0 then 0
           else ((GenerateReport (A ++ B)).TotalPomos : ℚ)
                / ((GenerateReport (A ++ B)).TotalSessions : ℚ)) := by
  refine ⟨?_, ?_, ?_, ?_, ?_, ?_, ?_⟩
  · simp [GenerateReport_TotalSessions]
  · simp [GenerateReport_TotalPomos, sumPomos]
  · simp [GenerateReport_TotalSkipped]
  · simp [GenerateReport_TotalWorkTime]
  · simp [GenerateReport_TotalBreakTime]
  · simp [GenerateReport_TotalDuration]
  · rw [GenerateReport_AveragePomos, GenerateReport_TotalSessions, GenerateReport_TotalPomos]
    by_cases h : A ++ B = []
    · simp [h]
    · rw [if_neg h, if_neg (by simpa using List.length_pos.mpr h |>.ne')]

/-- `ComparisonStats` from the analytics source file. -/
structure ComparisonStats where
  Current : ReportStats
  Previous : ReportStats
  PomoChange : ℤ
  PercentChange : ℚ
  Trend : String
  EfficiencyCurr : ℚ
  EfficiencyPrev : ℚ
deriving DecidableEq

/-- `CalculateFocusEfficiency`: completed pomodoros over completed plus
skipped, times 100; 0 when the denominator is 0. -/
def CalculateFocusEfficiency (stats : ReportStats) : ℚ :=
  let totalActivities := stats.TotalPomos + stats.TotalSkipped
  if totalActivities = 0 then 0
  else ((stats.TotalPomos : ℚ) / (totalActivities : ℚ)) * 100

/-- `buildComparisonStats` from the analytics source file: pomodoro delta,
percent change with the zero-previous conventions, and the ±10 trend
classification. -/
def buildComparisonStats (current previous : ReportStats) : ComparisonStats :=
  let pomoChange : ℤ := (current.TotalPomos : ℤ) - (previous.TotalPomos : ℤ)
  let percentChange : ℚ :=
    if 0 < previous.TotalPomos then
      ((pomoChange : ℚ) / (previous.TotalPomos : ℚ)) * 100
    else if 0 < current.TotalPomos then 100
    else 0
  let trend : String :=
    if 10 < percentChange then "improving"
    else if percentChange < -10 then "declining"
    else "stable"
  { Current := current
    Previous := previous
    PomoChange := pomoChange
    PercentChange := percentChange
    Trend := trend
    EfficiencyCurr := CalculateFocusEfficiency current
    EfficiencyPrev := CalculateFocusEfficiency previous }

/-- A concrete record used for scenario instances: `pomos` completed
pomodoros at the given day/hour/weekday, nothing else set. -/
def sampleRecord (day : ℤ) (hour weekday pomos : ℕ) : SessionRecord :=
  { day := day, hour := hour, weekday := weekday, title := "", goal := "",
    completedPomos := pomos, skippedSessions := 0, workTime := 0,
    breakTime := 0, duration := 0 }

/-- C2: for every pair of period reports, the comparison's pomodoro delta is
current minus previous; percent change is `(current-previous)/previous*100`,
defined as 100 when previous is 0 and current is nonzero and 0 when both are
0; the trend is "improving" iff percent change exceeds 10, "declining" iff it
is below -10, and "stable" otherwise; and scenario D (previous 0, current 5)
yields percent change 100 and trend "improving". -/
theorem comparison_delta_percent_trend (cur prev : ReportStats) :
    (buildComparisonStats cur prev).PomoChange
        = (cur.TotalPomos : ℤ) - (prev.TotalPomos : ℤ) ∧
    (buildComparisonStats cur prev).PercentChange
        = (if prev.TotalPomos = 0 then (if cur.TotalPomos = 0 then 0 else 100)
           else (((cur.TotalPomos : ℚ) - (prev.TotalPomos : ℚ))
                  / (prev.TotalPomos : ℚ)) * 100) ∧
    ((buildComparisonStats cur prev).Trend = "improving"
        ↔ 10 < (buildComparisonStats cur prev).PercentChange) ∧
    ((buildComparisonStats cur prev).Trend = "declining"
        ↔ (buildComparisonStats cur prev).PercentChange < -10) ∧
    ((buildComparisonStats cur prev).Trend = "stable"
        ↔ (-10 ≤ (buildComparisonStats cur prev).PercentChange
            ∧ (buildComparisonStats cur prev).PercentChange ≤ 10)) ∧
    (buildComparisonStats (GenerateReport [sampleRecord 0 9 1 5])
        (GenerateReport [])).PercentChange = 100 ∧
    (buildComparisonStats (GenerateReport [sampleRecord 0 9 1 5])
        (GenerateReport [])).Trend = "improving" := by
  have hpc : (buildComparisonStats cur prev).PercentChange =
      if 0 < prev.TotalPomos then
        ((((cur.TotalPomos : ℤ) - (prev.TotalPomos : ℤ) : ℤ) : ℚ)
          / (prev.TotalPomos : ℚ)) * 100
      else if 0 < cur.TotalPomos then 100 else 0 := rfl
  have htr : (buildComparisonStats cur prev).Trend =
      if 10 < (buildComparisonStats cur prev).PercentChange then "improving"
      else if (buildComparisonStats cur prev).PercentChange < -10 then "declining"
      else "stable" := rfl
  refine ⟨rfl, ?_, ?_, ?_, ?_, ?_, ?_⟩
  · rw [hpc]
    rcases Nat.eq_zero_or_pos prev.TotalPomos with h | h
    · rw [if_neg (by omega), if_pos h]
      rcases Nat.eq_zero_or_pos cur.TotalPomos with h2 | h2
      · rw [if_neg (by omega), if_pos h2]
      · rw [if_pos h2, if_neg (by omega)]
    · rw [if_pos h, if_neg (by omega)]
      push_cast
      ring
  · rw [htr]
    split_ifs with h1 h2
    · exact ⟨fun _ => h1, fun _ => rfl⟩
    · exact ⟨fun h => absurd h (by decide), fun h => absurd h h1⟩
    · exact ⟨fun h => absurd h (by decide), fun h => absurd h h1⟩
  · rw [htr]
    split_ifs with h1 h2
    · exact ⟨fun h => absurd h (by decide),
        fun h => absurd (h.trans (by norm_num)) (lt_asymm h1)⟩
    · exact ⟨fun _ => h2, fun _ => rfl⟩
    · exact ⟨fun h => absurd h (by decide), fun h => absurd h h2⟩
  · rw [htr]
    split_ifs with h1 h2
    · refine ⟨fun h => absurd h (by decide), fun h => ?_⟩
      exact absurd h1 (by push_neg; exact h.2)
    · refine ⟨fun h => absurd h (by decide), fun h => ?_⟩
      exact absurd h2 (by push_neg; exact h.1)
    · exact ⟨fun _ => ⟨by push_neg at h2; exact h2, by push_neg at h1; exact h1⟩,
        fun _ => rfl⟩
  · rfl
  · rfl

/-- `GoalProgress` from the goals source file. -/
structure GoalProgress where
  Goal : ℤ
  Completed : ℕ
  Percentage : ℚ
  Remaining : ℤ
  OnTrack : Bool
  PercentOfDay : ℚ
  PercentOfWeek : ℚ
deriving DecidableEq

/-- `CalculateGoalProgress` from the goals source file. `startDate` and
`now` are wall-clock instants measured in hours, since the code only uses
`now.Sub(startDate).Hours()`; `now` is passed explicitly where the Go code
reads `time.Now()`. -/
def CalculateGoalProgress (goal : ℤ) (records : List SessionRecord)
    (startDate now : ℚ) (isWeekly : Bool) : GoalProgress :=
  let completed : ℕ := sumPomos records
  let percentage : ℚ := if 0 < goal then ((completed : ℚ) / (goal : ℚ)) * 100 else 0
  let remaining0 : ℤ := goal - (completed : ℤ)
  let remaining : ℤ := if remaining0 < 0 then 0 else remaining0
  let elapsedHours : ℚ := now - startDate
  let percentElapsed : ℚ :=
    if isWeekly then (elapsedHours / (7 * 24)) * 100 else (elapsedHours / 24) * 100
  let onTrack : Bool := decide (percentElapsed ≤ percentage ∨ goal ≤ (completed : ℤ))
  { Goal := goal, Completed := completed, Percentage := percentage,
    Remaining := remaining, OnTrack := onTrack,
    PercentOfDay := percentElapsed, PercentOfWeek := percentElapsed }

/-- C4: goal progress reports completed as the sum of completed pomodoros,
percentage 0 for a zero goal and completed/goal×100 otherwise, remaining
clamped at 0, and on-track exactly when the goal percentage is at least the
percent of the period elapsed (24h daily / 7×24h weekly denominator) or the
goal is already met; scenario C (goal 10, 5 completed, 12 of 24 hours
elapsed) is on track with both percentages equal to 50. -/
theorem goal_progress_spec (goal : ℤ) (records : List SessionRecord)
    (startDate now : ℚ) (isWeekly : Bool) :
    (CalculateGoalProgress goal records startDate now isWeekly).Completed
        = sumPomos records ∧
    (goal = 0 →
      (CalculateGoalProgress goal records startDate now isWeekly).Percentage = 0) ∧
    (0 < goal →
      (CalculateGoalProgress goal records startDate now isWeekly).Percentage
        = ((sumPomos records : ℚ) / (goal : ℚ)) * 100) ∧
    (CalculateGoalProgress goal records startDate now isWeekly).Remaining
        = max (goal - (sumPomos records : ℤ)) 0 ∧
    0 ≤ (CalculateGoalProgress goal records startDate now isWeekly).Remaining ∧
    ((CalculateGoalProgress goal records startDate now isWeekly).OnTrack = true
      ↔ ((if isWeekly then ((now - startDate) / (7 * 24)) * 100
          else ((now - startDate) / 24) * 100)
            ≤ (CalculateGoalProgress goal records startDate now isWeekly).Percentage
         ∨ goal ≤ (sumPomos records : ℤ))) ∧
    ((CalculateGoalProgress 10 [sampleRecord 0 9 1 5] 0 12 false).OnTrack = true ∧
     (CalculateGoalProgress 10 [sampleRecord 0 9 1 5] 0 12 false).Percentage = 50 ∧
     (CalculateGoalProgress 10 [sampleRecord 0 9 1 5] 0 12 false).PercentOfDay = 50) := by
  refine ⟨rfl, ?_, ?_, ?_, ?_, ?_, ?_, ?_, ?_⟩
  · intro h
    show (if 0 < goal then _ else _) = _
    rw [if_neg (by omega)]
  · intro h
    show (if 0 < goal then _ else _) = _
    rw [if_pos h]
  · show (if goal - (sumPomos records : ℤ) < 0 then 0 else goal - (sumPomos records : ℤ))
        = _
    split_ifs with h
    · exact (max_eq_right (by omega)).symm
    · exact (max_eq_left (by omega)).symm
  · show 0 ≤ (if goal - (sumPomos records : ℤ) < 0 then 0
        else goal - (sumPomos records : ℤ))
    split_ifs with h <;> omega
  · show decide _ = true ↔ _
    rw [decide_eq_true_eq]
    exact Iff.rfl
  · apply decide_eq_true
    norm_num [sumPomos, sampleRecord]
  · norm_num [CalculateGoalProgress, sumPomos, sampleRecord]
  · norm_num [CalculateGoalProgress, sumPomos, sampleRecord]

/-- Witness for `goal_progress_spec`: the zero-goal and positive-goal
percentage clauses at concrete inputs. -/
theorem goal_progress_spec_witness :
    (CalculateGoalProgress 0 [] 0 0 false).Percentage = 0 ∧
    (CalculateGoalProgress 10 [sampleRecord 0 9 1 5] 0 12 false).Percentage
      = ((sumPomos [sampleRecord 0 9 1 5] : ℚ) / ((10 : ℤ) : ℚ)) * 100 :=
  ⟨(goal_progress_spec 0 [] 0 0 false).2.1 rfl,
    (goal_progress_spec 10 [sampleRecord 0 9 1 5] 0 12 false).2.2.1 (by norm_num)⟩

/-- C10: with a positive goal exceeded by the completed count, the
percentage is exactly completed/goal×100, strictly above 100 (no clamping),
while remaining is clamped to 0 in the same result. -/
theorem goal_percentage_unclamped (goal : ℤ) (records : List SessionRecord)
    (startDate now : ℚ) (isWeekly : Bool)
    (hg : 0 < goal) (hc : goal < (sumPomos records : ℤ)) :
    (CalculateGoalProgress goal records startDate now isWeekly).Percentage
        = ((sumPomos records : ℚ) / (goal : ℚ)) * 100 ∧
    100 < (CalculateGoalProgress goal records startDate now isWeekly).Percentage ∧
    (CalculateGoalProgress goal records startDate now isWeekly).Remaining = 0 := by
  have hg' : (0 : ℚ) < (goal : ℚ) := by exact_mod_cast hg
  have hc' : (goal : ℚ) < ((sumPomos records : ℕ) : ℚ) := by exact_mod_cast hc
  have hdiv : (1 : ℚ) < ((sumPomos records : ℕ) : ℚ) / (goal : ℚ) :=
    (one_lt_div hg').mpr hc'
  have hperc : (CalculateGoalProgress goal records startDate now isWeekly).Percentage
      = ((sumPomos records : ℚ) / (goal : ℚ)) * 100 := by
    show (if 0 < goal then _ else _) = _
    rw [if_pos hg]
  refine ⟨hperc, ?_, ?_⟩
  · rw [hperc]
    calc (100 : ℚ) = 1 * 100 := by ring
    _ < ((sumPomos records : ℚ) / (goal : ℚ)) * 100 :=
        mul_lt_mul_of_pos_right hdiv (by norm_num)
  · show (if goal - (sumPomos records : ℤ) < 0 then 0
        else goal - (sumPomos records : ℤ)) = 0
    rw [if_pos (by omega)]

/-- Witness for `goal_percentage_unclamped` at goal 10 with 15 completed
pomodoros. -/
theorem goal_percentage_unclamped_witness :
    (0 : ℤ) < 10 ∧ (10 : ℤ) < (sumPomos [sampleRecord 0 9 1 15] : ℤ) ∧
    100 < (CalculateGoalProgress 10 [sampleRecord 0 9 1 15] 0 12 false).Percentage ∧
    (CalculateGoalProgress 10 [sampleRecord 0 9 1 15] 0 12 false).Remaining = 0 := by
  have h := goal_percentage_unclamped 10 [sampleRecord 0 9 1 15] 0 12 false
    (by norm_num) (by norm_num [sumPomos, sampleRecord])
  exact ⟨by norm_num, by norm_num [sumPomos, sampleRecord], h.2.1, h.2.2⟩

/-- `StreakInfo` from the goals source file. `LastActiveDate` is tracked for
display only and no claim touches it, so it is not modelled. -/
structure StreakInfo where
  CurrentStreak : ℕ
  LongestStreak : ℕ
deriving DecidableEq

/-- The distinct calendar days carrying at least one completed pomodoro, in
first-appearance order: the `dateSet` map built by `CalculateStreak`. -/
def activeDays (records : List SessionRecord) : List ℤ :=
  ((records.filter (fun r => 0 < r.completedPomos)).map (fun r => r.day)).dedup

/-- The backwards walk of the current-streak loop in `CalculateStreak`:
counts how many consecutive days `d, d-1, …` lie in `s`. The fuel bounds the
walk by the number of distinct active days, which the Go loop can never
exceed since every counted day is a distinct member of the set. -/
def countBack (s : List ℤ) : ℕ → ℤ → ℕ
  | 0, _ => 0
  | fuel + 1, d => if d ∈ s then 1 + countBack s fuel (d - 1) else 0

/-- The longest-streak scan of `CalculateStreak` over the ascending day
list: `temp` grows while consecutive days are exactly one apart, otherwise
it is folded into `longest`, with a final fold at the end. -/
def scanStreak : ℤ → ℕ → ℕ → List ℤ → ℕ
  | _, longest, temp, [] => if longest < temp then temp else longest
  | prev, longest, temp, d :: ds =>
      if d - prev = 1 then scanStreak d longest (temp + 1) ds
      else scanStreak d (if longest < temp then temp else longest) 1 ds

/-- `CalculateStreak` from the goals source file, as a pure function of the
record set and the current calendar day (`time.Now()` is passed as
`today`). The bubble sort over dates becomes an insertion sort (both yield
the ascending ordering of the distinct day set). -/
def CalculateStreak (records : List SessionRecord) (today : ℤ) : StreakInfo :=
  if records = [] then { CurrentStreak := 0, LongestStreak := 0 }
  else
    let s := activeDays records
    if s = [] then { CurrentStreak := 0, LongestStreak := 0 }
    else
      let dates := s.insertionSort (fun a b => a ≤ b)
      let cur : ℕ := if today ∈ s then 1 + countBack s s.length (today - 1) else 0
      let lng : ℕ :=
        match dates with
        | [] => 0
        | d :: ds => scanStreak d 0 1 ds
      { CurrentStreak := cur, LongestStreak := if lng < cur then cur else lng }

/-- C3: the reported longest streak is never below the current streak; the
final widening step of `CalculateStreak` raises the longest to the current
streak whenever the scan would report less. -/
theorem streak_longest_ge_current (records : List SessionRecord) (today : ℤ) :
    (CalculateStreak records today).CurrentStreak
      ≤ (CalculateStreak records today).LongestStreak := by
  unfold CalculateStreak
  split
  · simp
  · dsimp only
    split
    · simp
    · dsimp only
      split_ifs <;> omega

/-- `getTimeOfDay` from the analytics source file, on the hour of the
record's timestamp: `[6,12)` morning, `[12,18)` afternoon, `[18,24)`
evening, otherwise night. -/
def getTimeOfDay (hour : ℕ) : String :=
  if 6 ≤ hour ∧ hour < 12 then "morning"
  else if 12 ≤ hour ∧ hour < 18 then "afternoon"
  else if 18 ≤ hour ∧ hour < 24 then "evening"
  else "night"

/-- `TimeOfDayStats` from the analytics source file. -/
structure TimeOfDayStats where
  Morning : ReportStats
  Afternoon : ReportStats
  Evening : ReportStats
  Night : ReportStats

/-- `AnalyzeTimeOfDay`: the four appended sub-lists of the Go loop are the
order-preserving filters by time slot, each fed to `GenerateReport`. -/
def AnalyzeTimeOfDay (records : List SessionRecord) : TimeOfDayStats :=
  { Morning := GenerateReport (records.filter (fun r => getTimeOfDay r.hour = "morning"))
    Afternoon := GenerateReport (records.filter (fun r => getTimeOfDay r.hour = "afternoon"))
    Evening := GenerateReport (records.filter (fun r => getTimeOfDay r.hour = "evening"))
    Night := GenerateReport (records.filter (fun r => getTimeOfDay r.hour = "night")) }

/-- `DayOfWeekStats` from the analytics source file. -/
structure DayOfWeekStats where
  Monday : ReportStats
  Tuesday : ReportStats
  Wednesday : ReportStats
  Thursday : ReportStats
  Friday : ReportStats
  Saturday : ReportStats
  Sunday : ReportStats

/-- `AnalyzeDayOfWeek`: buckets by `t.Weekday()` (Go numbering
`0 = Sunday, 1 = Monday, …`); the per-weekday map groups preserve record
order, i.e. they are filters. -/
def AnalyzeDayOfWeek (records : List SessionRecord) : DayOfWeekStats :=
  { Monday := GenerateReport (records.filter (fun r => r.weekday = 1))
    Tuesday := GenerateReport (records.filter (fun r => r.weekday = 2))
    Wednesday := GenerateReport (records.filter (fun r => r.weekday = 3))
    Thursday := GenerateReport (records.filter (fun r => r.weekday = 4))
    Friday := GenerateReport (records.filter (fun r => r.weekday = 5))
    Saturday := GenerateReport (records.filter (fun r => r.weekday = 6))
    Sunday := GenerateReport (records.filter (fun r => r.weekday = 0)) }

/-- The running best average of the best-bucket loops: 0 while no bucket
has been selected (`bestAvg := 0.0` in the source). -/
def bestAvgOf : Option (String × ℚ) → ℚ
  | Option.none => 0
  | Option.some p => p.2

/-- One iteration of the best-bucket loops in `GetBestPerformingTime` and
`GetBestPerformingDay`: a candidate replaces the best so far exactly when it
has at least one session and a strictly higher average than `bestAvg`. -/
def bestStep (best : Option (String × ℚ)) (slot : String × ReportStats) :
    Option (String × ℚ) :=
  if 0 < slot.2.TotalSessions ∧ bestAvgOf best < slot.2.AveragePomos then
    Option.some (slot.1, slot.2.AveragePomos)
  else best

/-- The candidate buckets of `GetBestPerformingTime`. Go iterates its
`timeSlots` map in unspecified order; the model fixes the literal order of
the source. -/
def timeSlots (t : TimeOfDayStats) : List (String × ReportStats) :=
  [("Morning (6am-12pm)", t.Morning), ("Afternoon (12pm-6pm)", t.Afternoon),
   ("Evening (6pm-12am)", t.Evening), ("Night (12am-6am)", t.Night)]

/-- The candidate buckets of `GetBestPerformingDay`, in source order. -/
def daySlots (d : DayOfWeekStats) : List (String × ReportStats) :=
  [("Monday", d.Monday), ("Tuesday", d.Tuesday), ("Wednesday", d.Wednesday),
   ("Thursday", d.Thursday), ("Friday", d.Friday), ("Saturday", d.Saturday),
   ("Sunday", d.Sunday)]

/-- `GetBestPerformingTime`: `Option.none` models the "No data available"
result (`bestSlot` left empty), `Option.some (slot, avg)` the formatted
best-slot report. -/
def GetBestPerformingTime (t : TimeOfDayStats) : Option (String × ℚ) :=
  (timeSlots t).foldl bestStep Option.none

/-- `GetBestPerformingDay`, analogous to `GetBestPerformingTime`. -/
def GetBestPerformingDay (d : DayOfWeekStats) : Option (String × ℚ) :=
  (daySlots d).foldl bestStep Option.none

theorem foldl_bestStep_stays_some (xs : List (String × ReportStats)) :
    ∀ p, xs.foldl bestStep (Option.some p) ≠ Option.none := by
  induction xs with
  | nil => intro p h; exact Option.noConfusion h
  | cons x xs ih =>
    intro p
    rw [List.foldl_cons]
    by_cases hc : 0 < x.2.TotalSessions ∧ bestAvgOf (Option.some p) < x.2.AveragePomos
    · rw [show bestStep (Option.some p) x = Option.some (x.1, x.2.AveragePomos)
        from if_pos hc]
      exact ih _
    · rw [show bestStep (Option.some p) x = Option.some p from if_neg hc]
      exact ih _

theorem foldl_bestStep_none_iff (slots : List (String × ReportStats)) :
    slots.foldl bestStep Option.none = Option.none ↔
      ∀ s ∈ slots, s.2.TotalSessions = 0 ∨ s.2.AveragePomos ≤ 0 := by
  induction slots with
  | nil => simp
  | cons x xs ih =>
    rw [List.foldl_cons]
    by_cases hc : 0 < x.2.TotalSessions ∧ bestAvgOf Option.none < x.2.AveragePomos
    · rw [show bestStep Option.none x = Option.some (x.1, x.2.AveragePomos)
        from if_pos hc]
      constructor
      · intro h
        exact absurd h (foldl_bestStep_stays_some xs _)
      · intro h
        rcases h x (List.mem_cons_self x xs) with h0 | h0
        · omega
        · exact absurd hc.2 (by rw [show bestAvgOf Option.none = 0 from rfl]; linarith)
    · rw [show bestStep Option.none x = Option.none from if_neg hc, ih]
      constructor
      · intro h s hs
        rcases List.mem_cons.mp hs with rfl | hs
        · rcases Nat.eq_zero_or_pos s.2.TotalSessions with h0 | h0
          · exact Or.inl h0
          · refine Or.inr ?_
            by_contra hlt
            exact hc ⟨h0, by rw [show bestAvgOf Option.none = 0 from rfl]; linarith⟩
        · exact h s hs
      · intro h s hs
        exact h s (List.mem_cons_of_mem x hs)

theorem foldl_bestStep_some_spec (slots : List (String × ReportStats)) :
    ∀ (acc : Option (String × ℚ)), (∀ p, acc = Option.some p → 0 < p.2) →
    ∀ n a, slots.foldl bestStep acc = Option.some (n, a) →
      0 < a ∧
      (acc = Option.some (n, a) ∨
        ∃ s ∈ slots, s.1 = n ∧ s.2.AveragePomos = a ∧ 0 < s.2.TotalSessions) ∧
      (∀ s ∈ slots, 0 < s.2.TotalSessions → s.2.AveragePomos ≤ a) ∧
      (∀ p, acc = Option.some p → p.2 ≤ a) := by
  induction slots with
  | nil =>
    intro acc hacc n a h
    rw [List.foldl_nil] at h
    refine ⟨hacc _ h, Or.inl h, by simp, fun p hp => ?_⟩
    rw [hp] at h
    cases h
    exact le_refl _
  | cons x xs ih =>
    intro acc hacc n a h
    rw [List.foldl_cons] at h
    have havg0 : 0 ≤ bestAvgOf acc := by
      cases acc with
      | none => exact le_refl 0
      | some p => exact le_of_lt (hacc p rfl)
    by_cases hc : 0 < x.2.TotalSessions ∧ bestAvgOf acc < x.2.AveragePomos
    · rw [show bestStep acc x = Option.some (x.1, x.2.AveragePomos) from if_pos hc] at h
      have hacc' : ∀ p, Option.some (x.1, x.2.AveragePomos) = Option.some p → 0 < p.2 := by
        intro p hp
        cases hp
        exact lt_of_le_of_lt havg0 hc.2
      obtain ⟨ha, hmem, hmax, hle⟩ := ih _ hacc' n a h
      have hxa : x.2.AveragePomos ≤ a := hle _ rfl
      refine ⟨ha, ?_, ?_, ?_⟩
      · rcases hmem with heq | ⟨s, hs, hprop⟩
        · injection heq with heq
          exact Or.inr ⟨x, List.mem_cons_self x xs,
            congrArg Prod.fst heq, congrArg Prod.snd heq, hc.1⟩
        · exact Or.inr ⟨s, List.mem_cons_of_mem x hs, hprop⟩
      · intro s hs hpos
        rcases List.mem_cons.mp hs with rfl | hs
        · exact hxa
        · exact hmax s hs hpos
      · intro p hp
        exact le_trans (le_of_lt (by rw [hp] at hc; exact hc.2)) hxa
    · rw [show bestStep acc x = acc from if_neg hc] at h
      obtain ⟨ha, hmem, hmax, hle⟩ := ih _ hacc n a h
      refine ⟨ha, ?_, ?_, hle⟩
      · rcases hmem with heq | ⟨s, hs, hprop⟩
        · exact Or.inl heq
        · exact Or.inr ⟨s, List.mem_cons_of_mem x hs, hprop⟩
      · intro s hs hpos
        rcases List.mem_cons.mp hs with rfl | hs
        · have hns : s.2.AveragePomos ≤ bestAvgOf acc := by
            by_contra hlt
            exact hc ⟨hpos, by linarith⟩
          cases hq : acc with
          | none => rw [hq] at hns; exact le_trans hns (le_of_lt ha)
          | some p => exact le_trans (by rw [hq] at hns; exact hns) (hle p hq)
        · exact hmax s hs hpos

/-- C1 (amended): the best time-of-day bucket and best weekday reported are
the first bucket attaining the strictly highest average among buckets with
at least one session and a positive average; "No data available" is
reported iff every bucket has no sessions or a zero average (so a bucket
whose sessions all have zero completed pomodoros can never be selected). -/
theorem best_bucket_amended (records : List SessionRecord) :
    (GetBestPerformingTime (AnalyzeTimeOfDay records) = Option.none ↔
      ∀ s ∈ timeSlots (AnalyzeTimeOfDay records),
        s.2.TotalSessions = 0 ∨ s.2.AveragePomos ≤ 0) ∧
    (∀ n a, GetBestPerformingTime (AnalyzeTimeOfDay records) = Option.some (n, a) →
      0 < a ∧
      (∃ s ∈ timeSlots (AnalyzeTimeOfDay records),
        s.1 = n ∧ s.2.AveragePomos = a ∧ 0 < s.2.TotalSessions) ∧
      ∀ s ∈ timeSlots (AnalyzeTimeOfDay records),
        0 < s.2.TotalSessions → s.2.AveragePomos ≤ a) ∧
    (GetBestPerformingDay (AnalyzeDayOfWeek records) = Option.none ↔
      ∀ s ∈ daySlots (AnalyzeDayOfWeek records),
        s.2.TotalSessions = 0 ∨ s.2.AveragePomos ≤ 0) ∧
    (∀ n a, GetBestPerformingDay (AnalyzeDayOfWeek records) = Option.some (n, a) →
      0 < a ∧
      (∃ s ∈ daySlots (AnalyzeDayOfWeek records),
        s.1 = n ∧ s.2.AveragePomos = a ∧ 0 < s.2.TotalSessions) ∧
      ∀ s ∈ daySlots (AnalyzeDayOfWeek records),
        0 < s.2.TotalSessions → s.2.AveragePomos ≤ a) := by
  refine ⟨foldl_bestStep_none_iff _, ?_, foldl_bestStep_none_iff _, ?_⟩ <;>
  · intro n a h
    obtain ⟨ha, hmem, hmax, -⟩ :=
      foldl_bestStep_some_spec _ Option.none (by intro p hp; cases hp) n a h
    rcases hmem with heq | hmem
    · exact Option.noConfusion heq
    · exact ⟨ha, hmem, hmax⟩

/-- C1 counterexample: a record set whose single session is in the morning
(hour 9, a Monday) with zero completed pomodoros. The Morning and Monday
buckets each hold one session, so the claim requires them to be reported as
best, but the code reports "No data available" (`Option.none`) for both the
best time and the best day. -/
theorem best_bucket_cex :
    GetBestPerformingTime (AnalyzeTimeOfDay [sampleRecord 0 9 1 0]) = Option.none ∧
    (AnalyzeTimeOfDay [sampleRecord 0 9 1 0]).Morning.TotalSessions = 1 ∧
    GetBestPerformingDay (AnalyzeDayOfWeek [sampleRecord 0 9 1 0]) = Option.none ∧
    (AnalyzeDayOfWeek [sampleRecord 0 9 1 0]).Monday.TotalSessions = 1 := by
  have htod : AnalyzeTimeOfDay [sampleRecord 0 9 1 0]
      = { Morning := GenerateReport [sampleRecord 0 9 1 0],
          Afternoon := GenerateReport [], Evening := GenerateReport [],
          Night := GenerateReport [] } := by
    simp [AnalyzeTimeOfDay, getTimeOfDay, sampleRecord, List.filter]
  have hdow : AnalyzeDayOfWeek [sampleRecord 0 9 1 0]
      = { Monday := GenerateReport [sampleRecord 0 9 1 0],
          Tuesday := GenerateReport [], Wednesday := GenerateReport [],
          Thursday := GenerateReport [], Friday := GenerateReport [],
          Saturday := GenerateReport [], Sunday := GenerateReport [] } := by
    simp [AnalyzeDayOfWeek, sampleRecord, List.filter]
  have havg : (GenerateReport [sampleRecord 0 9 1 0]).AveragePomos ≤ 0 := by
    rw [GenerateReport_AveragePomos]
    norm_num [sumPomos, sampleRecord]
  have hone : (GenerateReport [sampleRecord 0 9 1 0]).TotalSessions = 1 := by
    rw [GenerateReport_TotalSessions]
    rfl
  refine ⟨?_, ?_, ?_, ?_⟩
  · rw [htod]
    refine (foldl_bestStep_none_iff _).mpr ?_
    intro s hs
    simp only [timeSlots, List.mem_cons, List.not_mem_nil, or_false] at hs
    rcases hs with rfl | rfl | rfl | rfl
    · exact Or.inr havg
    · exact Or.inl rfl
    · exact Or.inl rfl
    · exact Or.inl rfl
  · rw [htod]
    exact hone
  · rw [hdow]
    refine (foldl_bestStep_none_iff _).mpr ?_
    intro s hs
    simp only [daySlots, List.mem_cons, List.not_mem_nil, or_false] at hs
    rcases hs with rfl | rfl | rfl | rfl | rfl | rfl | rfl
    · exact Or.inr havg
    · exact Or.inl rfl
    · exact Or.inl rfl
    · exact Or.inl rfl
    · exact Or.inl rfl
    · exact Or.inl rfl
    · exact Or.inl rfl
  · rw [hdow]
    exact hone

/-- Witness for `best_bucket_amended` at the empty record set: every bucket
is empty, so the reported best time is "No data available". -/
theorem best_bucket_amended_witness :
    GetBestPerformingTime (AnalyzeTimeOfDay []) = Option.none :=
  (best_bucket_amended []).1.mpr (by
    intro s hs
    simp only [timeSlots, List.mem_cons, List.not_mem_nil, or_false] at hs
    rcases hs with rfl | rfl | rfl | rfl <;> exact Or.inl rfl)

/-- `Config` from `pomo/timer.go`; durations are `time.Duration`
integers. -/
structure Config where
  WorkDuration : ℤ
  ShortBreakDuration : ℤ
  LongBreakDuration : ℤ
  PomosUntilLongBreak : ℕ
  ShowCountdown : Bool
  SessionTitle : String
  SessionGoal : String
deriving DecidableEq

/-- `SessionStats` from `pomo/timer.go`; the run's start timestamp is
carried separately where needed. -/
structure SessionStats where
  CompletedPomos : ℕ
  SkippedSessions : ℕ
  TotalWorkTime : ℤ
  TotalBreakTime : ℤ
deriving DecidableEq

/-- Fresh stats at the start of `Run` (`NewSessionStats`). -/
def initialStats : SessionStats :=
  { CompletedPomos := 0, SkippedSessions := 0, TotalWorkTime := 0, TotalBreakTime := 0 }

/-- The observable outcome of one iteration of `Run`'s loop: whether the
work interval's countdown completed naturally and whether the break's did.
The continue answers that allowed each next iteration carry no state; the
list of rounds is exactly the iterations that executed. -/
structure Round where
  workCompleted : Bool
  breakCompleted : Bool
deriving DecidableEq

/-- `runWorkSession`: on natural completion the configured work duration is
accumulated and `true` returned; on skip the skip counter increments. -/
def runWorkSession (config : Config) (completed : Bool) (stats : SessionStats) :
    SessionStats × Bool :=
  if completed then
    ({ stats with TotalWorkTime := stats.TotalWorkTime + config.WorkDuration }, true)
  else
    ({ stats with SkippedSessions := stats.SkippedSessions + 1 }, false)

/-- `runBreak`: a completed break accumulates its duration, a skipped one
increments the skip counter. -/
def runBreak (duration : ℤ) (completed : Bool) (stats : SessionStats) : SessionStats :=
  if completed then { stats with TotalBreakTime := stats.TotalBreakTime + duration }
  else { stats with SkippedSessions := stats.SkippedSessions + 1 }

/-- One iteration of `Run`'s loop on the state `(pomoCount, stats)`: a
completed work interval advances both counters; the break is long exactly
when `pomoCount` has reached `PomosUntilLongBreak`, which also resets the
cycle counter. -/
def runRound (config : Config) (st : ℕ × SessionStats) (r : Round) :
    ℕ × SessionStats :=
  let step := runWorkSession config r.workCompleted st.2
  let pomoCount1 := if step.2 then st.1 + 1 else st.1
  let stats2 :=
    if step.2 then { step.1 with CompletedPomos := step.1.CompletedPomos + 1 }
    else step.1
  if config.PomosUntilLongBreak ≤ pomoCount1 then
    (0, runBreak config.LongBreakDuration r.breakCompleted stats2)
  else
    (pomoCount1, runBreak config.ShortBreakDuration r.breakCompleted stats2)

/-- The stats accumulated by `Run` over the executed rounds. -/
def runLoop (config : Config) (rounds : List Round) : SessionStats :=
  (rounds.foldl (runRound config) (0, initialStats)).2

/-- The save step at the end of `Run` (`timer.go:301-321`): a record is
built from the accumulated counters and handed to the store only when at
least one pomodoro completed and the store opened (`err == nil`); a
storage-open failure is silently skipped. `startDay`/`startHour`/
`startWeekday` are the run's start timestamp and `elapsed` is
`time.Since(stats.StartTime)`. -/
def savedRecord (config : Config) (storageOk : Bool) (stats : SessionStats)
    (startDay : ℤ) (startHour startWeekday : ℕ) (elapsed : ℤ) :
    Option SessionRecord :=
  if 0 < stats.CompletedPomos then
    if storageOk then
      Option.some
        { day := startDay, hour := startHour, weekday := startWeekday,
          title := config.SessionTitle, goal := config.SessionGoal,
          completedPomos := stats.CompletedPomos,
          skippedSessions := stats.SkippedSessions,
          workTime := stats.TotalWorkTime, breakTime := stats.TotalBreakTime,
          duration := elapsed }
    else Option.none
  else Option.none

theorem runRound_pomos (config : Config) (st : ℕ × SessionStats) (r : Round) :
    (runRound config st r).2.CompletedPomos
      = st.2.CompletedPomos + (if r.workCompleted then 1 else 0) := by
  unfold runRound runWorkSession runBreak
  cases hw : r.workCompleted <;> cases hb : r.breakCompleted <;>
    simp [hw, hb] <;> split_ifs <;> rfl

theorem runLoop_pomos_aux (config : Config) (rounds : List Round) :
    ∀ st : ℕ × SessionStats,
      ((rounds.foldl (runRound config) st).2).CompletedPomos
        = st.2.CompletedPomos + rounds.countP (fun r => r.workCompleted) := by
  induction rounds with
  | nil => intro st; simp
  | cons r rounds ih =>
    intro st
    rw [List.foldl_cons, ih, List.countP_cons, runRound_pomos]
    cases hw : r.workCompleted <;> simp [hw] <;> omega

/-- `Run` counts one completed pomodoro per work interval whose countdown
completed naturally. -/
theorem runLoop_pomos (config : Config) (rounds : List Round) :
    (runLoop config rounds).CompletedPomos
      = rounds.countP (fun r => r.workCompleted) := by
  unfold runLoop
  rw [runLoop_pomos_aux]
  simp [initialStats]

/-- C6: with the store available, a session record is built and handed to
the store iff at least one work interval's countdown completed during the
run; and any record handed to the store — whatever the storage outcome —
carries `completedPomos > 0`. -/
theorem record_saved_iff_pomos (config : Config) (rounds : List Round)
    (startDay : ℤ) (startHour startWeekday : ℕ) (elapsed : ℤ) :
    ((savedRecord config true (runLoop config rounds)
        startDay startHour startWeekday elapsed).isSome = true
      ↔ ∃ r ∈ rounds, r.workCompleted = true) ∧
    (∀ (storageOk : Bool) (rec : SessionRecord),
      savedRecord config storageOk (runLoop config rounds)
          startDay startHour startWeekday elapsed = Option.some rec →
      0 < rec.completedPomos) := by
  constructor
  · unfold savedRecord
    rw [runLoop_pomos]
    constructor
    · intro h
      rcases Nat.eq_zero_or_pos (rounds.countP (fun r => r.workCompleted)) with h0 | h0
      · rw [if_neg (by omega)] at h
        exact absurd h (by simp)
      · obtain ⟨r, hr, hp⟩ := List.countP_pos.mp h0
        exact ⟨r, hr, by simpa using hp⟩
    · intro ⟨r, hr, hw⟩
      have h0 : 0 < rounds.countP (fun r => r.workCompleted) :=
        List.countP_pos.mpr ⟨r, hr, by simpa using hw⟩
      rw [if_pos h0]
      rfl
  · intro storageOk rec h
    unfold savedRecord at h
    by_cases h1 : 0 < (runLoop config rounds).CompletedPomos
    · rw [if_pos h1] at h
      by_cases h2 : storageOk = true
      · rw [if_pos h2] at h
        cases h
        exact h1
      · rw [if_neg h2] at h
        exact Option.noConfusion h
    · rw [if_neg h1] at h
      exact Option.noConfusion h

/-- A default configuration instance for witnesses (the `DefaultConfig`
values, durations in minutes). -/
def sampleConfig : Config :=
  { WorkDuration := 25, ShortBreakDuration := 5, LongBreakDuration := 30,
    PomosUntilLongBreak := 4, ShowCountdown := true,
    SessionTitle := "", SessionGoal := "" }

/-- Witness for `record_saved_iff_pomos`: a run of one fully completed
round saves a record with one completed pomodoro. -/
theorem record_saved_iff_pomos_witness :
    (savedRecord sampleConfig true (runLoop sampleConfig [{ workCompleted := true, breakCompleted := true }])
        0 9 1 40).isSome = true ∧
    0 < ({ day := 0, hour := 9, weekday := 1, title := "", goal := "",
           completedPomos := 1, skippedSessions := 0, workTime := 25,
           breakTime := 5, duration := 40 } : SessionRecord).completedPomos := by
  have h := record_saved_iff_pomos sampleConfig
    [{ workCompleted := true, breakCompleted := true }] 0 9 1 40
  exact ⟨h.1.mpr ⟨{ workCompleted := true, breakCompleted := true }, by simp, rfl⟩,
    h.2 true _ (by rfl)⟩

/-- A whitespace character, as trimmed by Go's `strings.TrimSpace`
(restricted to the ASCII whitespace relevant to console input). -/
def isSpaceChar (c : Char) : Bool :=
  c = ' ' || c = '\t' || c = '\n' || c = '\r'

/-- `strings.ToLower(strings.TrimSpace(response))`: surrounding whitespace
removed, then letters lowercased (ASCII, which covers the y/yes/n/no
answers the prompt inspects). -/
def normalizeResponse (s : String) : String :=
  String.mk ((((s.toList.dropWhile isSpaceChar).reverse.dropWhile
    isSpaceChar).reverse).map Char.toLower)

/-- An affirmative continue answer: the normalised response is "y" or
"yes". -/
def isAffirmative (s : String) : Bool :=
  normalizeResponse s = "y" || normalizeResponse s = "yes"

/-- A negative continue answer: the normalised response is "n" or "no". -/
def isNegative (s : String) : Bool :=
  normalizeResponse s = "n" || normalizeResponse s = "no"

/-- `promptContinue` from `pomo/timer.go`, on the script of reads the
prompt will perform: `Option.none` is a failed read (error/EOF), and an
exhausted script means the next read fails. A read error returns `false`
("default to quit for safety"); an affirmative answer returns `true`; a
negative answer returns `false`; any other answer loops and asks again. -/
def promptContinue : List (Option String) → Bool
  | [] => false
  | Option.none :: _ => false
  | Option.some resp :: rest =>
    if isAffirmative resp then true
    else if isNegative resp then false
    else promptContinue rest

/-- The decision of a single read, in the amended claim's wording: a failed
read decides "stop", y/yes decides "continue", n/no decides "stop", any
other input decides nothing (the prompt repeats). -/
def promptDecision : Option String → Option Bool
  | Option.none => Option.some false
  | Option.some r =>
    if isAffirmative r then Option.some true
    else if isNegative r then Option.some false
    else Option.none

/-- C7 (amended): the continue prompt returns the first decisive answer of
the script — continue only for y/yes, stop for n/no and for an unreadable
response — and stops when no read ever decides; read errors are handled
inside the prompt (stop), never propagated. A merely non-affirmative answer
such as "maybe" is not decisive: the prompt asks again rather than
stopping. -/
theorem prompt_continue_first_decision (script : List (Option String)) :
    promptContinue script = (script.findSome? promptDecision).getD false := by
  induction script with
  | nil => rfl
  | cons e rest ih =>
    cases e with
    | none => rfl
    | some s =>
      by_cases ha : isAffirmative s
      · simp [promptContinue, promptDecision, List.findSome?_cons, ha]
      · by_cases hn : isNegative s
        · simp [promptContinue, promptDecision, List.findSome?_cons, ha, hn]
        · simpa [promptContinue, promptDecision, List.findSome?_cons, ha, hn] using ih

/-- C7 counterexample: the response "maybe" is not affirmative, yet the run
does not terminate at it — the prompt asks again and the follow-up "y"
continues the loop, contradicting the claim that every non-affirmative
answer results in stopping. -/
theorem prompt_nonaffirmative_not_stop_cex :
    promptContinue [Option.some "maybe", Option.some "y"] = true ∧
    isAffirmative "maybe" = false ∧
    promptContinue [Option.none] = false := by
  refine ⟨?_, ?_, rfl⟩ <;> decide

/-- The observable outcome of one CLI command invocation: the process exit
code and whether a storage-access error message was printed. -/
structure CmdOutcome where
  exitCode : ℕ
  storageErrorReported : Bool
deriving DecidableEq

/-- The `report` command (`cmd/report.go`): a storage-open failure or a
record-load failure prints an error message and exits with status 1;
otherwise the report is displayed and the command finishes with status 0. -/
def reportCmd (storageOk loadOk : Bool) : CmdOutcome :=
  if !storageOk then { exitCode := 1, storageErrorReported := true }
  else if !loadOk then { exitCode := 1, storageErrorReported := true }
  else { exitCode := 0, storageErrorReported := false }

/-- The timer command (`pomo.Run` called from `cmd/root.go`): the run loop
finishes, the summary prints, and the save step runs `NewStorage` guarded
by `if err == nil` — on a storage-open failure nothing is printed, no
record is handed over, and the process still exits 0. -/
def timerCmd (config : Config) (storageOk : Bool) (rounds : List Round)
    (startDay : ℤ) (startHour startWeekday : ℕ) (elapsed : ℤ) :
    CmdOutcome × Option SessionRecord :=
  ({ exitCode := 0, storageErrorReported := false },
    savedRecord config storageOk (runLoop config rounds)
      startDay startHour startWeekday elapsed)

/-- C8 (amended): a storage-open failure is fatal and reported in the
read-only `report` command (exit 1, message printed), but in the timer
command's save step it is silently swallowed: exit 0, no message, and the
completed run's record is dropped. -/
theorem storage_error_handling (loadOk : Bool) (config : Config)
    (rounds : List Round) (startDay : ℤ) (startHour startWeekday : ℕ)
    (elapsed : ℤ) :
    reportCmd false loadOk
        = { exitCode := 1, storageErrorReported := true } ∧
    (timerCmd config false rounds startDay startHour startWeekday elapsed).1
        = { exitCode := 0, storageErrorReported := false } ∧
    (timerCmd config false rounds startDay startHour startWeekday elapsed).2
        = Option.none := by
  refine ⟨rfl, rfl, ?_⟩
  show savedRecord config false (runLoop config rounds)
      startDay startHour startWeekday elapsed = Option.none
  simp [savedRecord]

/-- C8 counterexample: a timer run that completed one pomodoro but whose
store cannot be opened exits 0 with no error message and hands no record to
the store — the claim requires the failure to be reported with a non-zero
exit for every command. -/
theorem storage_error_swallowed_cex :
    0 < (runLoop sampleConfig
          [{ workCompleted := true, breakCompleted := true }]).CompletedPomos ∧
    (timerCmd sampleConfig false
        [{ workCompleted := true, breakCompleted := true }] 0 9 1 40).1.exitCode = 0 ∧
    (timerCmd sampleConfig false
        [{ workCompleted := true, breakCompleted := true }] 0 9 1 40).1.storageErrorReported
        = false ∧
    (timerCmd sampleConfig false
        [{ workCompleted := true, breakCompleted := true }] 0 9 1 40).2
        = Option.none := by
  refine ⟨?_, rfl, rfl, rfl⟩
  decide

/-- An event the select loop of `countdown` can receive: a ticker fire or a
delivery on the skip channel. -/
inductive TickEvent
  | tick
  | skip
deriving DecidableEq

/-- The select loop of `countdown` (`pomo/timer.go:181-196`) on the
sequence of events it receives, with `remaining` counted in ticks: while
`remaining > 0` the next event is consumed — a skip ends the interval as
skipped, a tick decrements `remaining` — and once `remaining` reaches 0 the
loop exits and the interval is reported completed, regardless of any event
still pending (the listener's late send is non-blocking and dropped).
`Option.none` marks a trace too short to finish the countdown. -/
def countdownRun : ℕ → List TickEvent → Option Bool
  | 0, _ => Option.some true
  | _ + 1, [] => Option.none
  | _ + 1, TickEvent.skip :: _ => Option.some false
  | n + 1, TickEvent.tick :: evs => countdownRun n evs

/-- C9: once the countdown's ticks have fully elapsed, the interval is
reported completed whatever arrives afterwards — in particular a skip
signal one tick after elapse is discarded — while a skip arriving before
elapse is honoured as skipped. -/
theorem countdown_late_skip_discarded (d : ℕ) (evs : List TickEvent) :
    countdownRun d (List.replicate d TickEvent.tick ++ evs) = Option.some true ∧
    countdownRun 25 (List.replicate 25 TickEvent.tick ++ [TickEvent.skip])
        = Option.some true ∧
    (∀ n, countdownRun (n + 1) (TickEvent.skip :: evs) = Option.some false) := by
  refine ⟨?_, by decide, fun n => rfl⟩
  induction d with
  | zero => rfl
  | succ n ih => simpa [List.replicate_succ, countdownRun] using ih

end Pomodoro
